import Mathlib

/-!
Verification of the Enron event-history summarisation core
(src/enron_data.py, class EnronEventHistory).

The embedding models the flat table as a list of FlatEvent records, the raw
input as a list of RawEvent records, and each pandas pipeline as a chain of
explicit list operations.  Timestamps are epoch milliseconds (`Nat`), parsed
by the source with pd.to_datetime(unit='ms'); calendar-month bucketing by
resample('M') is modelled with the standard civil-from-days conversion on the
proleptic Gregorian calendar (UTC), mapping a timestamp to the linear month
index 12 * year + (month - 1).  Library operations whose Lean counterparts
are not kernel-executable are given small structural implementations: the
delimiter split works on the character list of the field, and every sort is
a stable insertion sort (pandas sort_values uses the numpy quicksort, which
falls back to a stable insertion sort below 16 elements, and every sort of
group keys acts on distinct keys, where stability is vacuous).
-/

namespace BNP

/-! ## Structural string split and stable sort -/

/-- Splits a character list at every occurrence of the separator character.
The accumulator holds the current token reversed. -/
def splitCharAux (sep : Char) : List Char → List Char → List (List Char)
  | [], acc => [acc.reverse]
  | c :: cs, acc =>
    if c = sep then acc.reverse :: splitCharAux sep cs []
    else splitCharAux sep cs (c :: acc)

/-- Python str.split with a single-character delimiter, as used by
np.core.defchararray.split (src/enron_data.py line 81) with the default
sep='|': the empty string yields one empty token, and k separators yield
k + 1 tokens. -/
def splitOnSep (sep : Char) (s : String) : List String :=
  (splitCharAux sep s.data []).map fun cs => String.mk cs

/-- Stable insertion of an element into a sorted list: the new element goes
before the first element b with le a b. -/
def insertLe {α : Type} (le : α → α → Bool) (a : α) : List α → List α
  | [] => [a]
  | b :: t => if le a b then a :: b :: t else b :: insertLe le a t

/-- Stable insertion sort.  An earlier element a stays before a later
element b whenever le a b holds, so ties (le both ways) keep their original
relative order. -/
def isortBy {α : Type} (le : α → α → Bool) : List α → List α
  | [] => []
  | a :: t => insertLe le a (isortBy le t)

/-- Byte-wise lexicographic order on character lists. -/
def charListLe : List Char → List Char → Bool
  | [], _ => true
  | _ :: _, [] => false
  | a :: as, b :: bs =>
    if a.toNat < b.toNat then true
    else if b.toNat < a.toNat then false
    else charListLe as bs

/-- Lexicographic string order used when modelling the ascending key sort
that pandas groupby applies to its group keys. -/
def strLe (a b : String) : Bool := charListLe a.data b.data

/-- Boolean Nat order for the timestamp / month sorts. -/
def natLe (a b : Nat) : Bool := a ≤ b

/-! ## Calendar months -/

/-- Linear month index (12 * year + month - 1) of an epoch-millisecond
timestamp, on the proleptic Gregorian calendar at UTC.  This is the bucket
that pandas resample('M') assigns a row to. -/
def monthOf (ts : Nat) : Nat :=
  let days := ts / 86400000
  let z := days + 719468
  let era := z / 146097
  let doe := z % 146097
  let yoe := (doe - doe / 1460 + doe / 36524 - doe / 146096) / 365
  let doy := doe - (365 * yoe + yoe / 4 - yoe / 100)
  let mp := (5 * doy + 2) / 153
  let m := if mp < 10 then mp + 3 else mp - 9
  let y := yoe + era * 400 + (if mp < 10 then 0 else 1)
  12 * y + (m - 1)

/-- All month indices from lo to hi inclusive. -/
def monthsRange (lo hi : Nat) : List Nat :=
  (List.range (hi + 1 - lo)).map (lo + ·)

/-- The month bins pandas resample('M') generates for one group: every
calendar month from the month of the smallest timestamp of the group to the
month of the largest, inclusive.  The argument is the list of month indices
of the rows of the group. -/
def monthSpan (ms : List Nat) : List Nat :=
  match ms.min?, ms.max? with
  | some lo, some hi => monthsRange lo hi
  | _, _ => []

/-! ## Data model -/

/-- One record as read from the source CSV (columns 0-3, src/enron_data.py
lines 30-40): epoch-millisecond timestamp, message id, sender, and the
pipe-delimited recipient list. -/
structure RawEvent where
  event_timestamp : Nat
  message_id : String
  sender : String
  recipient_list : String
deriving DecidableEq, Repr

/-- One row of the expanded flat table (one recipient per record,
src/enron_data.py lines 42-50). -/
structure FlatEvent where
  event_timestamp : Nat
  message_id : String
  sender : String
  recipient : String
deriving DecidableEq, Repr

/-! ## Event table builder (expand_recipient_list, lines 64-86) -/

/-- The per-row normal form of the expansion: one FlatEvent per token of the
split recipient list, the other three fields copied verbatim. -/
def expandRow (sep : Char) (r : RawEvent) : List FlatEvent :=
  (splitOnSep sep r.recipient_list).map fun t =>
    { event_timestamp := r.event_timestamp, message_id := r.message_id,
      sender := r.sender, recipient := t }

/-- Placeholder used for the dead out-of-range branch of a list lookup. -/
def dummyRaw : RawEvent := ⟨0, "", "", ""⟩

/-- Embedding of expand_recipient_list (src/enron_data.py lines 64-86),
mirroring the numpy construction.  col_value is the split recipient column
(line 81); np.concatenate(col_value) flattens it (line 82) and raises
ValueError when handed zero arrays, so a zero-row input fails, modelled as
none; counts and rpt (lines 83-84) repeat each source row index once per
token of that row; line 86 pairs recipient j with source row rpt[j] and the
argsort asrt puts the columns back in the order (event_timestamp,
message_id, sender, recipient). -/
def expand_recipient_list (rows : List RawEvent) (sep : Char) :
    Option (List FlatEvent) :=
  let col_value : List (List String) :=
    rows.map fun r => splitOnSep sep r.recipient_list
  if rows.length = 0 then none else
  let expanded_col_values : List String := col_value.flatten
  let counts : List Nat := col_value.map List.length
  let rpt : List Nat :=
    ((List.range rows.length).zip counts).flatMap fun ic =>
      List.replicate ic.2 ic.1
  some ((expanded_col_values.zip rpt).map fun pr =>
    let r := rows.getD pr.2 dummyRaw
    { event_timestamp := r.event_timestamp, message_id := r.message_id,
      sender := r.sender, recipient := pr.1 })

/-- The flat-table construction of EnronEventHistory.__init__ (lines 44-47):
expansion with the default delimiter.  The subsequent rename and the
to_datetime parse (lines 50-56) do not change the modelled content. -/
def build_event_history (rows : List RawEvent) : Option (List FlatEvent) :=
  expand_recipient_list rows '|'

/-! ## generate_email_count_stats (lines 88-156) -/

/-- One output row: person, sent count, received count. -/
structure PersonCountRow where
  person : String
  sent : Nat
  received : Nat
deriving DecidableEq, Repr

/-- groupby('sender')['message_id'].nunique() for one group (lines 100-104):
the number of distinct message ids among rows whose sender is p. -/
def sent_nunique (df : List FlatEvent) (p : String) : Nat :=
  ((df.filter fun e => e.sender == p).map fun e => e.message_id).dedup.length

/-- groupby('recipient')['message_id'].nunique() for one group
(lines 111-115). -/
def received_nunique (df : List FlatEvent) (p : String) : Nat :=
  ((df.filter fun e => e.recipient == p).map fun e => e.message_id).dedup.length

/-- The distinct senders in ascending order: pandas groupby sorts its group
keys. -/
def sender_keys (df : List FlatEvent) : List String :=
  isortBy strLe ((df.map fun e => e.sender).dedup)

/-- The distinct recipients in ascending order. -/
def recipient_keys (df : List FlatEvent) : List String :=
  isortBy strLe ((df.map fun e => e.recipient).dedup)

/-- sender_count_stats_df (lines 100-108): one (person, sent) pair per
distinct sender. -/
def sender_count_stats (df : List FlatEvent) : List (String × Nat) :=
  (sender_keys df).map fun p => (p, sent_nunique df p)

/-- recipient_count_stats_df (lines 111-119). -/
def recipient_count_stats (df : List FlatEvent) : List (String × Nat) :=
  (recipient_keys df).map fun p => (p, received_nunique df p)

/-- pd.merge(..., on='person', how='outer') with fillna(0) and the int cast
(lines 122-134): the left rows in left order, the right value matched on
person and defaulting to 0, followed by the right-only persons in right
order with sent 0. -/
def email_count_stats_merged (df : List FlatEvent) : List PersonCountRow :=
  let s := sender_count_stats df
  let r := recipient_count_stats df
  (s.map fun pr => ⟨pr.1, pr.2, (r.lookup pr.1).getD 0⟩) ++
    ((r.filter fun pr => (s.lookup pr.1).isNone).map fun pr => ⟨pr.1, 0, pr.2⟩)

/-- sort_values(by='sent', ascending=False) (lines 137-141), as the stable
descending sort on the sent column. -/
def generate_email_count_stats (df : List FlatEvent) : List PersonCountRow :=
  isortBy (fun a b => natLe b.sent a.sent) (email_count_stats_merged df)

/-! ## generate_sent_email_count_distribution (lines 158-232) -/

/-- The projected row shape of lines 171-174: (event_timestamp, sender,
message_id). -/
abbrev SentRow := Nat × String × String

/-- senders_eeh_df after lines 172-180: filter to the requested senders,
project to the three columns, drop_duplicates, and sort by timestamp.
List.dedup keeps the last of a run of equal rows where pandas keeps the
first; the kept values are identical, so the resulting rows coincide as a
set and every aggregate below is unchanged. -/
def senders_eeh_df (df : List FlatEvent) (sender_list : List String) :
    List SentRow :=
  isortBy (fun a b => natLe a.1 b.1)
    (((df.filter fun e => sender_list.contains e.sender).map
        fun e => (e.event_timestamp, e.sender, e.message_id)).dedup)

/-- The rows of one sender group of line 183. -/
def sent_rows (df : List FlatEvent) (sender_list : List String) (p : String) :
    List SentRow :=
  (senders_eeh_df df sender_list).filter fun r => r.2.1 == p

/-- The resample('M') bins of one sender group. -/
def sent_span (df : List FlatEvent) (sender_list : List String) (p : String) :
    List Nat :=
  monthSpan ((sent_rows df sender_list p).map fun r => monthOf r.1)

/-- The columns of the unstacked frame (line 189): the distinct senders
present in the filtered rows, in the sorted key order of groupby. -/
def sent_cols (df : List FlatEvent) (sender_list : List String) : List String :=
  isortBy strLe (((senders_eeh_df df sender_list).map fun r => r.2.1).dedup)

/-- The month index of the unstacked frame: the sorted union of the
per-group resample bins. -/
def sent_months (df : List FlatEvent) (sender_list : List String) : List Nat :=
  isortBy natLe ((((sent_cols df sender_list).map (sent_span df sender_list)).flatten).dedup)

/-- One cell of the unstacked, fillna(0) frame (lines 183-190): inside the
bins of the group of p, resample('M').count() counts the rows of the group
falling in month m; outside them, fillna supplies 0. -/
def sent_value (df : List FlatEvent) (sender_list : List String) (p : String)
    (m : Nat) : Nat :=
  if m ∈ sent_span df sender_list p then
    ((sent_rows df sender_list p).filter fun r => monthOf r.1 == m).length
  else 0

/-- A monthly unstacked frame: month index, person columns, and the cell
function. -/
structure MonthlyDist (α : Type) where
  months : List Nat
  persons : List String
  value : String → Nat → α

/-- The data content of generate_sent_email_count_distribution
(lines 158-190; the plotting and saving of lines 192-228 are I/O). -/
def generate_sent_email_count_distribution (df : List FlatEvent)
    (sender_list : List String) : MonthlyDist Nat :=
  ⟨sent_months df sender_list, sent_cols df sender_list,
    sent_value df sender_list⟩

/-! ## generate_relative_unique_contacts_distribution (lines 234-308) -/

/-- recipient_eeh_df after lines 247-253: filter to the requested recipients
and sort by timestamp. -/
def recipient_eeh_df (df : List FlatEvent) (recipient_list : List String) :
    List FlatEvent :=
  isortBy (fun a b => natLe a.event_timestamp b.event_timestamp)
    (df.filter fun e => recipient_list.contains e.recipient)

/-- The rows of one recipient group of line 256. -/
def rel_rows (df : List FlatEvent) (recipient_list : List String) (p : String) :
    List FlatEvent :=
  (recipient_eeh_df df recipient_list).filter fun e => e.recipient == p

/-- The resample('M') bins of one recipient group. -/
def rel_span (df : List FlatEvent) (recipient_list : List String) (p : String) :
    List Nat :=
  monthSpan ((rel_rows df recipient_list p).map fun e => monthOf e.event_timestamp)

/-- The columns of the unstacked frame (line 262). -/
def rel_cols (df : List FlatEvent) (recipient_list : List String) : List String :=
  isortBy strLe (((recipient_eeh_df df recipient_list).map fun e => e.recipient).dedup)

/-- The month index of the unstacked frame: sorted union of the per-group
bins. -/
def rel_months (df : List FlatEvent) (recipient_list : List String) : List Nat :=
  isortBy natLe ((((rel_cols df recipient_list).map (rel_span df recipient_list)).flatten).dedup)

/-- One cell of the unstacked, fillna(0) frame before normalization
(lines 256-263): resample('M').nunique() counts the distinct senders of the
rows of the group of p falling in month m inside the bins of that group;
fillna supplies 0 outside them. -/
def rel_cnt (df : List FlatEvent) (recipient_list : List String) (p : String)
    (m : Nat) : Nat :=
  if m ∈ rel_span df recipient_list p then
    (((rel_rows df recipient_list p).filter
        fun e => monthOf e.event_timestamp == m).map fun e => e.sender).dedup.length
  else 0

/-- The cross-column sum .sum(axis=1) of line 266 for month m. -/
def rel_sum (df : List FlatEvent) (recipient_list : List String) (m : Nat) : Nat :=
  ((rel_cols df recipient_list).map fun p => rel_cnt df recipient_list p m).sum

/-- One cell after the .div of line 266.  The source applies no fillna after
dividing: when the cross-column sum of a month is 0 every count of that
month is 0 as well (each count is a summand of the sum), so every cell of
that row is the float 0/0 = NaN, modelled as none; when the sum is nonzero
each cell is the finite ratio count / sum. -/
def rel_value (df : List FlatEvent) (recipient_list : List String) (p : String)
    (m : Nat) : Option ℚ :=
  if rel_sum df recipient_list m = 0 then none
  else some ((rel_cnt df recipient_list p m : ℚ) / (rel_sum df recipient_list m : ℚ))

/-- The data content of generate_relative_unique_contacts_distribution
(lines 234-266; the plotting and saving of lines 268-304 are I/O). -/
def generate_relative_unique_contacts_distribution (df : List FlatEvent)
    (recipient_list : List String) : MonthlyDist (Option ℚ) :=
  ⟨rel_months df recipient_list, rel_cols df recipient_list,
    rel_value df recipient_list⟩

/-! ## Object state for the frame-effect claim -/

/-- The state of an EnronEventHistory object: the shared flat table held in
self.event_history_df. -/
structure EnronEventHistory where
  event_history_df : List FlatEvent
deriving DecidableEq, Repr

/-- generate_email_count_stats as a method call: every step of lines 100-141
builds a fresh frame (groupby, merge, fillna, astype, and the final sort all
act on the derived stats frame, never on self.event_history_df), so the
object state after the call equals the state before. -/
def generate_email_count_stats_op (s : EnronEventHistory) :
    List PersonCountRow × EnronEventHistory :=
  (generate_email_count_stats s.event_history_df,
    { event_history_df := s.event_history_df })

/-- generate_sent_email_count_distribution as a method call: the boolean
.loc mask of lines 172-174 copies, and the inplace drop_duplicates,
set_index and sort_index of lines 176-180 mutate only that copy. -/
def generate_sent_email_count_distribution_op (s : EnronEventHistory)
    (sender_list : List String) : MonthlyDist Nat × EnronEventHistory :=
  (generate_sent_email_count_distribution s.event_history_df sender_list,
    { event_history_df := s.event_history_df })

/-- generate_relative_unique_contacts_distribution as a method call: the
boolean .loc mask of lines 247-249 copies, and the inplace set_index and
sort_index of lines 252-253 mutate only that copy. -/
def generate_relative_unique_contacts_distribution_op (s : EnronEventHistory)
    (recipient_list : List String) :
    MonthlyDist (Option ℚ) × EnronEventHistory :=
  (generate_relative_unique_contacts_distribution s.event_history_df
      recipient_list,
    { event_history_df := s.event_history_df })

/-! ## Spec-side definitions (for refinement comparisons) -/

/-- Modelled from the spec wording of C2: the number of distinct message_ids
sent by p within month m. -/
def spec_distinct_mids_sent (df : List FlatEvent) (p : String) (m : Nat) : Nat :=
  ((df.filter fun e => e.sender == p && (monthOf e.event_timestamp == m)).map
      fun e => e.message_id).dedup.length

/-- What the code actually reports per cell (amended C2): the number of
distinct (timestamp, message_id) pairs sent by p within month m. -/
def distinct_ts_mid_sent (df : List FlatEvent) (p : String) (m : Nat) : Nat :=
  ((df.filter fun e => e.sender == p && (monthOf e.event_timestamp == m)).map
      fun e => (e.event_timestamp, e.message_id)).dedup.length

/-- The number of distinct message_ids among the source rows (C7). -/
def spec_distinct_mids (rows : List RawEvent) : Nat :=
  ((rows.map fun r => r.message_id).dedup).length

/-- The number of distinct message_ids in the flat table. -/
def flat_distinct_mids (df : List FlatEvent) : Nat :=
  ((df.map fun e => e.message_id).dedup).length

/-- Modelled from the spec wording of C8: the position of the first
appearance of p in the flat table, scanning each row as sender then
recipient. -/
def spec_first_appearance (df : List FlatEvent) (p : String) : Nat :=
  (df.flatMap fun e => [e.sender, e.recipient]).indexOf p

/-- The position of the row of person p in a count-stats output. -/
def person_pos (out : List PersonCountRow) (p : String) : Nat :=
  (out.map fun r => r.person).indexOf p

/-! ## Concrete inputs used by counterexamples and witnesses -/

/-- The concrete scenario of spec section 8. -/
def scenarioRaw : List RawEvent :=
  [⟨1000, "m1", "alice", "bob|carol"⟩, ⟨2000, "m1", "alice", "bob"⟩,
    ⟨3000, "m2", "bob", "alice"⟩]

/-- The flat table of the concrete scenario. -/
def scenarioFlat : List FlatEvent := (build_event_history scenarioRaw).getD []

/-- Two senders, one with a January 1970 event and one with a March 1970
event (timestamp 5097600000 ms = 59 days = 1970-03-01): the per-group bins
skip February. -/
def gapFlat : List FlatEvent := [⟨0, "m1", "a", "x"⟩, ⟨5097600000, "m2", "b", "y"⟩]

/-- One recipient with a January 1970 and a March 1970 event: the February
bin of its own group has zero distinct senders, so the February row sum is
zero. -/
def nanFlat : List FlatEvent :=
  [⟨0, "m1", "s1", "A"⟩, ⟨5097600000, "m2", "s2", "A"⟩]

/-- The same message id sent by two different senders. -/
def c7Flat : List FlatEvent := [⟨1000, "m1", "a", "x"⟩, ⟨2000, "m1", "b", "y"⟩]

/-- Two senders with equal sent counts whose first-appearance order is b
before a. -/
def c8Flat : List FlatEvent := [⟨1000, "m1", "b", "x"⟩, ⟨2000, "m2", "a", "y"⟩]

/-! ## Generic lemmas about the structural sort -/

lemma insertLe_perm {α : Type} (le : α → α → Bool) (a : α) (l : List α) :
    (insertLe le a l).Perm (a :: l) := by
  induction l with
  | nil => exact List.Perm.refl _
  | cons b t ih =>
    by_cases h : le a b
    · simp [insertLe, h]
    · simp only [insertLe, if_neg h]
      exact (ih.cons b).trans (List.Perm.swap a b t)

lemma isortBy_perm {α : Type} (le : α → α → Bool) (l : List α) :
    (isortBy le l).Perm l := by
  induction l with
  | nil => exact List.Perm.refl _
  | cons a t ih => exact (insertLe_perm le a (isortBy le t)).trans (ih.cons a)

lemma mem_isortBy {α : Type} {le : α → α → Bool} {l : List α} {x : α} :
    x ∈ isortBy le l ↔ x ∈ l :=
  (isortBy_perm le l).mem_iff

lemma nodup_isortBy {α : Type} {le : α → α → Bool} {l : List α} :
    (isortBy le l).Nodup ↔ l.Nodup :=
  (isortBy_perm le l).nodup_iff

lemma pairwise_insertLe {α : Type} (le : α → α → Bool)
    (htrans : ∀ a b c, le a b = true → le b c = true → le a c = true)
    (htot : ∀ a b, le a b = true ∨ le b a = true) (a : α) {l : List α}
    (hl : l.Pairwise fun x y => le x y = true) :
    (insertLe le a l).Pairwise fun x y => le x y = true := by
  induction l with
  | nil => simp [insertLe]
  | cons b t ih =>
    rcases List.pairwise_cons.mp hl with ⟨hbt, ht⟩
    by_cases h : le a b
    · simp only [insertLe, if_pos h]
      refine List.Pairwise.cons ?_ hl
      intro y hy
      rcases List.mem_cons.mp hy with rfl | hy
      · exact h
      · exact htrans a b y h (hbt y hy)
    · simp only [insertLe, if_neg h]
      have hba : le b a = true := by
        rcases htot a b with hab | hba
        · exact absurd hab h
        · exact hba
      refine List.Pairwise.cons ?_ (ih ht)
      intro y hy
      have hy2 : y ∈ a :: t := (insertLe_perm le a t).mem_iff.mp hy
      rcases List.mem_cons.mp hy2 with rfl | hyt
      · exact hba
      · exact hbt y hyt

lemma pairwise_isortBy {α : Type} (le : α → α → Bool)
    (htrans : ∀ a b c, le a b = true → le b c = true → le a c = true)
    (htot : ∀ a b, le a b = true ∨ le b a = true) (l : List α) :
    (isortBy le l).Pairwise fun x y => le x y = true := by
  induction l with
  | nil => simp [isortBy]
  | cons a t ih => exact pairwise_insertLe le htrans htot a ih

/-! ## Generic lemmas about dedup -/

lemma dedup_filter {α : Type} [DecidableEq α] (p : α → Bool) (l : List α) :
    (l.filter p).dedup = l.dedup.filter p := by
  induction l with
  | nil => simp
  | cons a t ih =>
    by_cases hmem : a ∈ t
    · rw [List.dedup_cons_of_mem hmem]
      by_cases hp : p a
      · have : a ∈ t.filter p := List.mem_filter.mpr ⟨hmem, hp⟩
        rw [List.filter_cons_of_pos hp, List.dedup_cons_of_mem this, ih]
      · rw [List.filter_cons_of_neg (by simpa using hp), ih]
    · rw [List.dedup_cons_of_not_mem hmem]
      by_cases hp : p a
      · have : a ∉ t.filter p := fun hc => hmem (List.mem_filter.mp hc).1
        rw [List.filter_cons_of_pos hp, List.dedup_cons_of_not_mem this, ih,
          List.filter_cons_of_pos hp]
      · rw [List.filter_cons_of_neg (by simpa using hp), ih,
          List.filter_cons_of_neg (by simpa using hp)]

lemma dedup_map_inj {α β : Type} [DecidableEq α] [DecidableEq β] {f : α → β}
    {l : List α} (hinj : ∀ x ∈ l, ∀ y ∈ l, f x = f y → x = y) :
    (l.map f).dedup = l.dedup.map f := by
  induction l with
  | nil => simp
  | cons a t ih =>
    have hinj2 : ∀ x ∈ t, ∀ y ∈ t, f x = f y → x = y := fun x hx y hy =>
      hinj x (List.mem_cons_of_mem a hx) y (List.mem_cons_of_mem a hy)
    by_cases hmem : a ∈ t
    · have : f a ∈ t.map f := List.mem_map_of_mem f hmem
      rw [List.map_cons, List.dedup_cons_of_mem this,
        List.dedup_cons_of_mem hmem, ih hinj2]
    · have : f a ∉ t.map f := by
        intro hc
        rcases List.mem_map.mp hc with ⟨y, hy, hfy⟩
        have hya : y = a := hinj y (List.mem_cons_of_mem a hy) a
          (List.mem_cons_self a t) hfy
        exact hmem (hya ▸ hy)
      rw [List.map_cons, List.dedup_cons_of_not_mem this,
        List.dedup_cons_of_not_mem hmem, List.map_cons, ih hinj2]

/-! ## Lemmas about month spans -/

lemma mem_monthsRange {lo hi m : Nat} :
    m ∈ monthsRange lo hi ↔ lo ≤ m ∧ m ≤ hi := by
  simp only [monthsRange, List.mem_map, List.mem_range]
  constructor
  · rintro ⟨k, hk, rfl⟩
    omega
  · rintro ⟨h1, h2⟩
    exact ⟨m - lo, by omega, by omega⟩

lemma nat_min?_le {ms : List Nat} {lo x : Nat} (h : ms.min? = some lo)
    (hx : x ∈ ms) : lo ≤ x := by
  exact ((List.min?_eq_some_iff (fun a => le_refl a) (fun a b => min_choice a b)
    (fun a b c => le_min_iff)).mp h).2 x hx

lemma nat_le_max? {ms : List Nat} {hi x : Nat} (h : ms.max? = some hi)
    (hx : x ∈ ms) : x ≤ hi := by
  exact ((List.max?_eq_some_iff (fun a => le_refl a) (fun a b => max_choice a b)
    (fun a b c => max_le_iff)).mp h).2 x hx

lemma mem_monthSpan_of_mem {ms : List Nat} {x : Nat} (hx : x ∈ ms) :
    x ∈ monthSpan ms := by
  cases hmin : ms.min? with
  | none =>
    rw [List.min?_eq_none_iff] at hmin
    subst hmin
    cases hx
  | some lo =>
    cases hmax : ms.max? with
    | none =>
      rw [List.max?_eq_none_iff] at hmax
      subst hmax
      cases hx
    | some hi =>
      simp only [monthSpan, hmin, hmax]
      exact mem_monthsRange.mpr ⟨nat_min?_le hmin hx, nat_le_max? hmax hx⟩

/-! ## A lemma about lookup in a keyed map -/

lemma lookup_map_keys (ks : List String) (f : String → Nat) (q : String) :
    ((ks.map fun p => (p, f p)).lookup q) = if q ∈ ks then some (f q) else none := by
  induction ks with
  | nil => simp
  | cons k t ih =>
    by_cases hqk : q = k
    · subst hqk
      simp [List.lookup]
    · have hbeq : (q == k) = false := beq_eq_false_iff_ne.mpr hqk
      simp only [List.map_cons, List.lookup, hbeq, ih]
      by_cases hq : q ∈ t
      · rw [if_pos hq, if_pos (List.mem_cons_of_mem k hq)]
      · rw [if_neg hq, if_neg (by simp [List.mem_cons, hqk, hq])]

/-! ## The flatMap normal form of the expansion -/

lemma zip_replicate_self {α β : Type} (l : List α) (b : β) :
    l.zip (List.replicate l.length b) = l.map (fun t => (t, b)) := by
  induction l with
  | nil => simp
  | cons a t ih => simp [List.replicate_succ, ih]

lemma expand_zip_eq (rows : List RawEvent) (sep : Char) :
    (((rows.map fun r => splitOnSep sep r.recipient_list).flatten).zip
      (((List.range rows.length).zip
          ((rows.map fun r => splitOnSep sep r.recipient_list).map List.length)).flatMap
        fun ic => List.replicate ic.2 ic.1)).map
      (fun pr =>
        let r := rows.getD pr.2 dummyRaw
        ({ event_timestamp := r.event_timestamp, message_id := r.message_id,
           sender := r.sender, recipient := pr.1 } : FlatEvent))
    = rows.flatMap (expandRow sep) := by
  induction rows with
  | nil => simp
  | cons r rest ih =>
    have hshift :
        (((List.range rest.length).map Nat.succ).zip
            ((rest.map fun x => splitOnSep sep x.recipient_list).map List.length)).flatMap
          (fun ic => List.replicate ic.2 ic.1)
        = (((List.range rest.length).zip
              ((rest.map fun x => splitOnSep sep x.recipient_list).map List.length)).flatMap
            (fun ic => List.replicate ic.2 ic.1)).map Nat.succ := by
      rw [List.zip_map_left, List.flatMap_map, List.map_flatMap]
      simp only [Prod.map_fst, Prod.map_snd, List.map_replicate, id_eq]
    simp only [List.map_cons, List.flatten_cons, List.length_cons,
      List.range_succ_eq_map, List.zip_cons_cons, List.flatMap_cons, hshift]
    rw [List.zip_append (by simp), zip_replicate_self, List.zip_map_right]
    rw [List.map_append, List.map_map, List.map_map]
    simp only [Function.comp_def, Prod.map_fst, Prod.map_snd, id_eq,
      Nat.succ_eq_add_one, List.getD_cons_zero, List.getD_cons_succ]
    congr 1

lemma expand_eq_flatMap (rows : List RawEvent) (sep : Char) (h : rows ≠ []) :
    expand_recipient_list rows sep = some (rows.flatMap (expandRow sep)) := by
  have hlen : ¬ rows.length = 0 := by simpa [List.length_eq_zero] using h
  simp only [expand_recipient_list, if_neg hlen]
  exact congrArg some (expand_zip_eq rows sep)

/-! ## Claim C4: expansion cardinality -/

/-- Claim C4 (confirmed, for the nonempty inputs on which the builder runs at
all): the expansion emits, row by row, exactly one FlatEvent per token of the
split recipient field, so the output length is the sum of the token counts,
and a row with an empty recipient field contributes exactly one FlatEvent
whose recipient is the empty string. -/
theorem expansion_cardinality (rows : List RawEvent) (h : rows ≠ []) :
    ∃ out, expand_recipient_list rows '|' = some out ∧
      out = rows.flatMap (expandRow '|') ∧
      out.length = (rows.map fun r => (splitOnSep '|' r.recipient_list).length).sum ∧
      ∀ r ∈ rows, r.recipient_list = "" →
        expandRow '|' r = [⟨r.event_timestamp, r.message_id, r.sender, ""⟩] := by
  refine ⟨rows.flatMap (expandRow '|'), expand_eq_flatMap rows '|' h, rfl, ?_, ?_⟩
  · rw [List.length_flatMap]
    refine congrArg List.sum (List.map_congr_left ?_)
    intro r hr
    simp [expandRow, Function.comp_def]
  · intro r hr he
    have hsplit : splitOnSep '|' "" = [""] := by decide
    simp [expandRow, he, hsplit]

/-- Witness for C4 at a concrete one-row input with an empty recipient
field. -/
theorem expansion_cardinality_witness :
    ∃ out,
      expand_recipient_list [(⟨5, "m", "s", ""⟩ : RawEvent)] '|' = some out ∧
      out = [(⟨5, "m", "s", ""⟩ : RawEvent)].flatMap (expandRow '|') ∧
      out.length = ([(⟨5, "m", "s", ""⟩ : RawEvent)].map
          fun r => (splitOnSep '|' r.recipient_list).length).sum ∧
      ∀ r ∈ [(⟨5, "m", "s", ""⟩ : RawEvent)], r.recipient_list = "" →
        expandRow '|' r = [⟨r.event_timestamp, r.message_id, r.sender, ""⟩] :=
  expansion_cardinality _ (List.cons_ne_nil _ _)

/-! ## Claim C5: field alignment -/

/-- Claim C5 (confirmed, for the nonempty inputs on which the builder runs at
all): the expansion output decomposes row by row; within the block of one
source row every FlatEvent copies (timestamp, message_id, sender) verbatim
from that row, and the recipients of the block are exactly the split tokens
of that row, in order (hence as a multiset). -/
theorem expansion_field_alignment (rows : List RawEvent) (h : rows ≠ []) :
    ∃ out, expand_recipient_list rows '|' = some out ∧
      out = rows.flatMap (expandRow '|') ∧
      ∀ r ∈ rows,
        ((expandRow '|' r).map fun e => e.recipient) = splitOnSep '|' r.recipient_list ∧
        ∀ e ∈ expandRow '|' r,
          e.event_timestamp = r.event_timestamp ∧ e.message_id = r.message_id ∧
            e.sender = r.sender := by
  refine ⟨_, expand_eq_flatMap rows '|' h, rfl, ?_⟩
  intro r hr
  refine ⟨by simp [expandRow, Function.comp_def], ?_⟩
  intro e he
  simp only [expandRow, List.mem_map] at he
  obtain ⟨t, ht, rfl⟩ := he
  exact ⟨rfl, rfl, rfl⟩

/-- Witness for C5 at the concrete scenario input. -/
theorem expansion_field_alignment_witness :
    ∃ out, expand_recipient_list scenarioRaw '|' = some out ∧
      out = scenarioRaw.flatMap (expandRow '|') ∧
      ∀ r ∈ scenarioRaw,
        ((expandRow '|' r).map fun e => e.recipient) = splitOnSep '|' r.recipient_list ∧
        ∀ e ∈ expandRow '|' r,
          e.event_timestamp = r.event_timestamp ∧ e.message_id = r.message_id ∧
            e.sender = r.sender :=
  expansion_field_alignment scenarioRaw (by decide)

/-! ## Claim C9: empty input -/

/-- Counterexample to claim C9: with zero RawEvents the flat-table build does
not succeed; line 82 of src/enron_data.py calls np.concatenate on zero
arrays, which raises ValueError, so the build returns no table at all and
the three operations are never reached. -/
theorem empty_input_build_fails : build_event_history [] = none := rfl

/-- Claim C9 (corrected): empty input is an error: the flat-table build fails
on zero rows, while every nonempty input builds successfully. -/
theorem empty_input_vs_nonempty :
    build_event_history [] = none ∧
      ∀ rows : List RawEvent, rows ≠ [] →
        ∃ out, build_event_history rows = some out := by
  refine ⟨rfl, ?_⟩
  intro rows h
  exact ⟨_, expand_eq_flatMap rows '|' h⟩

/-- Witness for C9: the nonempty branch at a concrete one-row input. -/
theorem empty_input_vs_nonempty_witness :
    ∃ out, build_event_history [(⟨0, "m", "s", "r"⟩ : RawEvent)] = some out :=
  empty_input_vs_nonempty.2 _ (List.cons_ne_nil _ _)

/-! ## Lemmas about the count-stats pipeline -/

lemma mem_sender_keys {df : List FlatEvent} {p : String} :
    p ∈ sender_keys df ↔ ∃ e ∈ df, e.sender = p := by
  simp [sender_keys, mem_isortBy, List.mem_dedup, List.mem_map]

lemma mem_recipient_keys {df : List FlatEvent} {p : String} :
    p ∈ recipient_keys df ↔ ∃ e ∈ df, e.recipient = p := by
  simp [recipient_keys, mem_isortBy, List.mem_dedup, List.mem_map]

lemma sent_nunique_eq_zero {df : List FlatEvent} {p : String}
    (h : ∀ e ∈ df, e.sender ≠ p) : sent_nunique df p = 0 := by
  have : df.filter (fun e => e.sender == p) = [] := by
    rw [List.filter_eq_nil_iff]
    intro e he
    simpa using h e he
  simp [sent_nunique, this]

lemma received_nunique_eq_zero {df : List FlatEvent} {p : String}
    (h : ∀ e ∈ df, e.recipient ≠ p) : received_nunique df p = 0 := by
  have : df.filter (fun e => e.recipient == p) = [] := by
    rw [List.filter_eq_nil_iff]
    intro e he
    simpa using h e he
  simp [received_nunique, this]

lemma merged_row_values {df : List FlatEvent} {row : PersonCountRow}
    (h : row ∈ email_count_stats_merged df) :
    row.sent = sent_nunique df row.person ∧
      row.received = received_nunique df row.person := by
  simp only [email_count_stats_merged, List.mem_append, List.mem_map,
    List.mem_filter, sender_count_stats, recipient_count_stats] at h
  rcases h with ⟨pr, hpr, rfl⟩ | ⟨pr, ⟨hpr, hnone⟩, rfl⟩
  · rcases hpr with ⟨p, hp, rfl⟩
    refine ⟨rfl, ?_⟩
    rw [show (recipient_keys df).map (fun p => (p, received_nunique df p)) =
      (recipient_keys df).map (fun p => (p, received_nunique df p)) from rfl,
      lookup_map_keys]
    by_cases hin : p ∈ recipient_keys df
    · rw [if_pos hin]
      rfl
    · rw [if_neg hin]
      have : received_nunique df p = 0 := by
        apply received_nunique_eq_zero
        intro e he hrec
        exact hin (mem_recipient_keys.mpr ⟨e, he, hrec⟩)
      simp [this]
  · rcases hpr with ⟨p, hp, rfl⟩
    rw [lookup_map_keys] at hnone
    refine ⟨?_, rfl⟩
    by_cases hin : p ∈ sender_keys df
    · rw [if_pos hin] at hnone
      simp at hnone
    · have : sent_nunique df p = 0 := by
        apply sent_nunique_eq_zero
        intro e he hs
        exact hin (mem_sender_keys.mpr ⟨e, he, hs⟩)
      simp [this]

lemma mem_merged_person {df : List FlatEvent} {p : String} :
    (∃ row ∈ email_count_stats_merged df, row.person = p) ↔
      (∃ e ∈ df, e.sender = p) ∨ ∃ e ∈ df, e.recipient = p := by
  constructor
  · rintro ⟨row, hrow, rfl⟩
    simp only [email_count_stats_merged, List.mem_append, List.mem_map,
      List.mem_filter, sender_count_stats, recipient_count_stats] at hrow
    rcases hrow with ⟨pr, hpr, rfl⟩ | ⟨pr, ⟨hpr, _⟩, rfl⟩
    · rcases hpr with ⟨q, hq, rfl⟩
      exact Or.inl (mem_sender_keys.mp hq)
    · rcases hpr with ⟨q, hq, rfl⟩
      exact Or.inr (mem_recipient_keys.mp hq)
  · intro h
    by_cases hs : p ∈ sender_keys df
    · refine ⟨⟨p, sent_nunique df p,
        (((recipient_keys df).map fun q => (q, received_nunique df q)).lookup p).getD 0⟩,
        ?_, rfl⟩
      simp only [email_count_stats_merged, List.mem_append]
      left
      simp only [sender_count_stats, recipient_count_stats, List.mem_map]
      exact ⟨(p, sent_nunique df p), ⟨p, hs, rfl⟩, rfl⟩
    · have hr : p ∈ recipient_keys df := by
        rcases h with h | h
        · exact absurd (mem_sender_keys.mpr h) hs
        · exact mem_recipient_keys.mpr h
      refine ⟨⟨p, 0, received_nunique df p⟩, ?_, rfl⟩
      simp only [email_count_stats_merged, List.mem_append]
      right
      simp only [recipient_count_stats, sender_count_stats, List.mem_map,
        List.mem_filter]
      refine ⟨(p, received_nunique df p), ⟨⟨p, hr, rfl⟩, ?_⟩, rfl⟩
      rw [lookup_map_keys, if_neg hs]
      rfl

/-! ## Claim C6: per-person sent and received counts -/

/-- Claim C6 (confirmed): the count-stats output has one row for exactly the
persons appearing as sender or recipient; each row reports the number of
distinct message ids that person sent and the number it received, the side
missing from the outer join filled with 0 (a person with no rows on one side
has distinct-count 0 on that side); and on the concrete scenario the flat
table has 4 rows and both alice and bob get sent 1 and received 1. -/
theorem counts_per_person (df : List FlatEvent) :
    (∀ p, (∃ row ∈ generate_email_count_stats df, row.person = p) ↔
        (∃ e ∈ df, e.sender = p) ∨ ∃ e ∈ df, e.recipient = p) ∧
      (∀ row ∈ generate_email_count_stats df,
        row.sent = sent_nunique df row.person ∧
          row.received = received_nunique df row.person) ∧
      scenarioFlat.length = 4 ∧
      (⟨"alice", 1, 1⟩ : PersonCountRow) ∈ generate_email_count_stats scenarioFlat ∧
      (⟨"bob", 1, 1⟩ : PersonCountRow) ∈ generate_email_count_stats scenarioFlat := by
  refine ⟨?_, ?_, by decide, by decide, by decide⟩
  · intro p
    rw [← mem_merged_person]
    constructor
    · rintro ⟨row, hrow, rfl⟩
      exact ⟨row, mem_isortBy.mp hrow, rfl⟩
    · rintro ⟨row, hrow, rfl⟩
      exact ⟨row, mem_isortBy.mpr hrow, rfl⟩
  · intro row hrow
    exact merged_row_values (mem_isortBy.mp hrow)

/-- Witness for C6: the row-value clause applied at the concrete scenario and
the alice row. -/
theorem counts_per_person_witness :
    (⟨"alice", 1, 1⟩ : PersonCountRow).sent =
        sent_nunique scenarioFlat (⟨"alice", 1, 1⟩ : PersonCountRow).person ∧
      (⟨"alice", 1, 1⟩ : PersonCountRow).received =
        received_nunique scenarioFlat (⟨"alice", 1, 1⟩ : PersonCountRow).person :=
  (counts_per_person scenarioFlat).2.1 ⟨"alice", 1, 1⟩ (by decide)

/-! ## Claim C7: count conservation -/

/-- Counterexample to claim C7 as universally stated: when the same
message_id occurs with two different senders, the sum of the sent column
counts it once per sender, so the sum exceeds the number of distinct
message_ids. -/
theorem sent_sum_conservation_cx :
    ((generate_email_count_stats c7Flat).map fun r => r.sent).sum ≠
        flat_distinct_mids c7Flat ∧
      ((generate_email_count_stats c7Flat).map fun r => r.sent).sum = 2 ∧
      flat_distinct_mids c7Flat = 1 := by decide

/-- Claim C7 (corrected): on any dataset in which each message_id has a
single sender (the invariant of the data model; each message is one event),
the sum of the sent column over the count-stats output equals the number of
distinct message_ids in the table. -/
theorem sent_sum_conservation (df : List FlatEvent)
    (h : ∀ e1 ∈ df, ∀ e2 ∈ df,
      e1.message_id = e2.message_id → e1.sender = e2.sender) :
    ((generate_email_count_stats df).map fun r => r.sent).sum =
      flat_distinct_mids df := by
  classical
  have hperm : ((generate_email_count_stats df).map fun r => r.sent).sum =
      ((email_count_stats_merged df).map fun r => r.sent).sum :=
    ((isortBy_perm _ _).map _).sum_eq
  rw [hperm]
  have hzero : ∀ (l : List (String × Nat)),
      ((l.map fun pr => (⟨pr.1, 0, pr.2⟩ : PersonCountRow)).map fun r => r.sent).sum = 0 := by
    intro l
    apply List.sum_eq_zero
    intro x hx
    rw [List.map_map] at hx
    rcases List.mem_map.mp hx with ⟨pr, _, rfl⟩
    rfl
  have hmerged : ((email_count_stats_merged df).map fun r => r.sent).sum =
      ((sender_keys df).map fun p => sent_nunique df p).sum := by
    simp only [email_count_stats_merged, List.map_append, List.sum_append]
    rw [hzero, add_zero, List.map_map, sender_count_stats, List.map_map]
    rfl
  rw [hmerged]
  have hkeys : ((sender_keys df).map fun p => sent_nunique df p).sum =
      (((df.map fun e => e.sender).dedup).map fun p => sent_nunique df p).sum :=
    ((isortBy_perm _ _).map _).sum_eq
  rw [hkeys]
  have hnodup : ((df.map fun e => e.sender).dedup).Nodup := List.nodup_dedup _
  have htofin : ((df.map fun e => e.sender).dedup).toFinset =
      (df.map fun e => e.sender).toFinset := by
    ext x
    simp [List.mem_toFinset, List.mem_dedup]
  have hsum : (((df.map fun e => e.sender).dedup).map fun p => sent_nunique df p).sum =
      ∑ p ∈ (df.map fun e => e.sender).toFinset, sent_nunique df p := by
    rw [← List.sum_toFinset _ hnodup, htofin]
  rw [hsum]
  have hcell : ∀ p, sent_nunique df p =
      (((df.filter fun e => e.sender == p).map fun e => e.message_id).toFinset).card :=
    fun p => (List.card_toFinset _).symm
  have hdisj : ∀ x ∈ (df.map fun e => e.sender).toFinset,
      ∀ y ∈ (df.map fun e => e.sender).toFinset, x ≠ y →
      Disjoint (((df.filter fun e => e.sender == x).map fun e => e.message_id).toFinset)
        (((df.filter fun e => e.sender == y).map fun e => e.message_id).toFinset) := by
    intro x hx y hy hxy
    rw [Finset.disjoint_left]
    intro mid hmx hmy
    simp only [List.mem_toFinset, List.mem_map, List.mem_filter] at hmx hmy
    rcases hmx with ⟨e1, ⟨he1, hs1⟩, hm1⟩
    rcases hmy with ⟨e2, ⟨he2, hs2⟩, hm2⟩
    apply hxy
    have hx1 : e1.sender = x := by simpa using hs1
    have hy2 : e2.sender = y := by simpa using hs2
    rw [← hx1, ← hy2]
    exact h e1 he1 e2 he2 (hm1.trans hm2.symm)
  have hunion : ((df.map fun e => e.sender).toFinset).biUnion
      (fun p => ((df.filter fun e => e.sender == p).map fun e => e.message_id).toFinset) =
      (df.map fun e => e.message_id).toFinset := by
    ext mid
    simp only [Finset.mem_biUnion, List.mem_toFinset, List.mem_map, List.mem_filter]
    constructor
    · rintro ⟨p, _, e, ⟨he, _⟩, hm⟩
      exact ⟨e, he, hm⟩
    · rintro ⟨e, he, hm⟩
      exact ⟨e.sender, ⟨e, he, rfl⟩, e, ⟨he, by simp⟩, hm⟩
  calc ∑ p ∈ (df.map fun e => e.sender).toFinset, sent_nunique df p
      = ∑ p ∈ (df.map fun e => e.sender).toFinset,
          (((df.filter fun e => e.sender == p).map fun e => e.message_id).toFinset).card := by
        exact Finset.sum_congr rfl fun p _ => hcell p
    _ = (((df.map fun e => e.sender).toFinset).biUnion
          (fun p => ((df.filter fun e => e.sender == p).map fun e => e.message_id).toFinset)).card :=
        (Finset.card_biUnion hdisj).symm
    _ = ((df.map fun e => e.message_id).toFinset).card := by rw [hunion]
    _ = flat_distinct_mids df := List.card_toFinset _

/-- Witness for C7 on the concrete scenario table, where each message_id has
one sender. -/
theorem sent_sum_conservation_witness :
    ((generate_email_count_stats scenarioFlat).map fun r => r.sent).sum =
      flat_distinct_mids scenarioFlat :=
  sent_sum_conservation scenarioFlat (by decide)

/-! ## Claim C8: output ordering -/

/-- Counterexample to claim C8: with two tied senders whose first input
appearance is b before a, the output lists a before b; the merge feeds the
sort in sorted person order (pandas groupby sorts group keys), not in
first-appearance order, so the tie-break of the claim fails. -/
theorem stats_tie_order_cx :
    (generate_email_count_stats c8Flat).map (fun r => r.person) = ["a", "b", "x", "y"] ∧
      (generate_email_count_stats c8Flat).map (fun r => r.sent) = [1, 1, 0, 0] ∧
      spec_first_appearance c8Flat "b" < spec_first_appearance c8Flat "a" ∧
      person_pos (generate_email_count_stats c8Flat) "a" <
        person_pos (generate_email_count_stats c8Flat) "b" := by decide

/-- Claim C8 (corrected): the output is sorted descending by sent and is a
permutation of the outer-merge result; the sort is deterministic and, being
stable, keeps tied rows in merge order, which lists persons in sorted key
order (senders first, then recipient-only persons), not in input
first-appearance order. -/
theorem stats_sorted_desc (df : List FlatEvent) :
    (generate_email_count_stats df).Perm (email_count_stats_merged df) ∧
      (generate_email_count_stats df).Pairwise fun a b => b.sent ≤ a.sent := by
  refine ⟨isortBy_perm _ _, ?_⟩
  have hp := pairwise_isortBy
    (fun a b : PersonCountRow => natLe b.sent a.sent)
    (fun a b c hab hbc => by
      simp only [natLe, decide_eq_true_eq] at hab hbc ⊢
      omega)
    (fun a b => by
      simp only [natLe, decide_eq_true_eq]
      omega)
    (email_count_stats_merged df)
  refine hp.imp ?_
  intro a b hab
  simpa [natLe] using hab

/-! ## Lemmas about the monthly pipelines -/

lemma mem_senders_eeh {df : List FlatEvent} {lst : List String} {r : SentRow} :
    r ∈ senders_eeh_df df lst ↔
      ∃ e, (e ∈ df ∧ lst.contains e.sender) ∧
        (e.event_timestamp, e.sender, e.message_id) = r := by
  simp [senders_eeh_df, mem_isortBy, List.mem_dedup, List.mem_map, List.mem_filter]

lemma mem_sent_rows {df : List FlatEvent} {lst : List String} {p : String}
    {r : SentRow} :
    r ∈ sent_rows df lst p ↔
      (∃ e, (e ∈ df ∧ lst.contains e.sender) ∧
        (e.event_timestamp, e.sender, e.message_id) = r) ∧ r.2.1 = p := by
  simp [sent_rows, List.mem_filter, mem_senders_eeh]

lemma mem_recipient_eeh {df : List FlatEvent} {lst : List String} {e : FlatEvent} :
    e ∈ recipient_eeh_df df lst ↔ e ∈ df ∧ lst.contains e.recipient := by
  simp [recipient_eeh_df, mem_isortBy, List.mem_filter]

lemma mem_rel_rows {df : List FlatEvent} {lst : List String} {p : String}
    {e : FlatEvent} :
    e ∈ rel_rows df lst p ↔ (e ∈ df ∧ lst.contains e.recipient) ∧ e.recipient = p := by
  simp [rel_rows, List.mem_filter, mem_recipient_eeh]

lemma dedup_length_proj (S : List FlatEvent) (p : String)
    (hS : ∀ e ∈ S, e.sender = p) :
    ((S.map fun e => (e.event_timestamp, e.sender, e.message_id)).dedup).length
      = ((S.map fun e => (e.event_timestamp, e.message_id)).dedup).length := by
  have hinj : ∀ x ∈ S.map fun e => (e.event_timestamp, e.sender, e.message_id),
      ∀ y ∈ S.map fun e => (e.event_timestamp, e.sender, e.message_id),
      (fun t : Nat × String × String => (t.1, t.2.2)) x =
        (fun t : Nat × String × String => (t.1, t.2.2)) y → x = y := by
    intro x hx y hy hxy
    rcases List.mem_map.mp hx with ⟨e1, he1, rfl⟩
    rcases List.mem_map.mp hy with ⟨e2, he2, rfl⟩
    simp only [Prod.mk.injEq] at hxy ⊢
    exact ⟨hxy.1, by rw [hS e1 he1, hS e2 he2], hxy.2⟩
  have hmap : (S.map fun e => (e.event_timestamp, e.sender, e.message_id)).map
      (fun t : Nat × String × String => (t.1, t.2.2)) =
      S.map fun e => (e.event_timestamp, e.message_id) := by
    rw [List.map_map]
    rfl
  rw [← hmap, dedup_map_inj hinj, List.length_map]

lemma filter_map_proj_sent (lst : List String) (p : String) (m : Nat)
    (hp : p ∈ lst) (df : List FlatEvent) :
    ((df.filter fun e => lst.contains e.sender).map
        fun e => (e.event_timestamp, e.sender, e.message_id)).filter
      (fun r => (monthOf r.1 == m) && (r.2.1 == p)) =
    (df.filter fun e => e.sender == p && (monthOf e.event_timestamp == m)).map
      fun e => (e.event_timestamp, e.sender, e.message_id) := by
  induction df with
  | nil => rfl
  | cons a t ih =>
    by_cases hs : a.sender = p
    · have hc : lst.contains a.sender = true := by
        rw [hs]
        exact List.elem_iff.mpr hp
      have h1 : (a.sender == p) = true := beq_iff_eq.mpr hs
      by_cases hm : (monthOf a.event_timestamp == m) = true
      · simp only [List.filter_cons, hc, if_true, List.map_cons, hm, h1,
          Bool.and_true, Bool.true_and, ih]
      · have hm2 : (monthOf a.event_timestamp == m) = false := by
          simpa using hm
        simp only [List.filter_cons, hc, if_true, List.map_cons, hm2, h1,
          Bool.and_true, Bool.true_and, Bool.false_and, Bool.and_false,
          Bool.false_eq_true, if_false, ih]
    · have h1 : (a.sender == p) = false := beq_eq_false_iff_ne.mpr hs
      by_cases hc : lst.contains a.sender = true
      · simp only [List.filter_cons, hc, if_true, List.map_cons, h1,
          Bool.and_false, Bool.false_and, Bool.false_eq_true, if_false, ih]
      · have hc2 : lst.contains a.sender = false := by simpa using hc
        simp only [List.filter_cons, hc2, h1, Bool.false_and,
          Bool.false_eq_true, if_false, ih]

lemma sent_rows_filter_count (df : List FlatEvent) (lst : List String)
    (p : String) (hp : p ∈ lst) (m : Nat) :
    ((sent_rows df lst p).filter fun r => monthOf r.1 == m).length =
      distinct_ts_mid_sent df p m := by
  rw [sent_rows, List.filter_filter]
  rw [senders_eeh_df]
  rw [((isortBy_perm _ _).filter _).length_eq]
  rw [← dedup_filter, filter_map_proj_sent lst p m hp df]
  rw [distinct_ts_mid_sent]
  apply dedup_length_proj
  intro e he
  have h2 := (List.mem_filter.mp he).2
  rw [Bool.and_eq_true] at h2
  exact beq_iff_eq.mp h2.1

lemma sent_rows_all_sender {df : List FlatEvent} {lst : List String} {p : String} :
    ∀ r ∈ sent_rows df lst p, r.2.1 = p := fun r hr => (mem_sent_rows.mp hr).2

/-! ## Claim C2: the monthly sent cell value -/

/-- Counterexample to claim C2: in the concrete scenario of spec section 8,
message m1 is sent by alice from two source rows with different timestamps;
the dedup of lines 175-176 acts on whole (timestamp, sender, message_id)
triples and the .count() of line 185 counts rows, so the January 1970 cell
for alice reports 2, while the number of distinct message_ids alice sent
that month is 1. -/
theorem sent_monthly_value_cx :
    sent_value scenarioFlat ["alice"] "alice" 23640 = 2 ∧
      spec_distinct_mids_sent scenarioFlat "alice" 23640 = 1 ∧
      sent_value scenarioFlat ["alice"] "alice" 23640 ≠
        spec_distinct_mids_sent scenarioFlat "alice" 23640 := by decide

/-- Claim C2 (corrected): for a requested sender, each monthly cell equals
the number of distinct (timestamp, message_id) pairs that sender has in that
month — the residue of deduplicating (timestamp, sender, message_id)
triples — which counts a message once per distinct timestamp, not once per
month. -/
theorem sent_monthly_value (df : List FlatEvent) (lst : List String)
    (p : String) (hp : p ∈ lst) (m : Nat) :
    sent_value df lst p m = distinct_ts_mid_sent df p m := by
  rw [sent_value]
  by_cases hm : m ∈ sent_span df lst p
  · rw [if_pos hm]
    exact sent_rows_filter_count df lst p hp m
  · rw [if_neg hm]
    symm
    have hnil : df.filter (fun e => e.sender == p && (monthOf e.event_timestamp == m)) = [] := by
      rw [List.filter_eq_nil_iff]
      intro e he hpred
      rw [Bool.and_eq_true] at hpred
      have hs : e.sender = p := beq_iff_eq.mp hpred.1
      have hmm : monthOf e.event_timestamp = m := beq_iff_eq.mp hpred.2
      apply hm
      rw [← hmm]
      apply mem_monthSpan_of_mem
      have hproj : (e.event_timestamp, e.sender, e.message_id) ∈ sent_rows df lst p := by
        apply mem_sent_rows.mpr
        refine ⟨⟨e, ⟨he, ?_⟩, rfl⟩, ?_⟩
        · rw [hs]
          exact List.elem_iff.mpr hp
        · exact hs
      have hfst : ((e.event_timestamp, e.sender, e.message_id) : SentRow).1 =
          e.event_timestamp := rfl
      exact List.mem_map.mpr
        ⟨(e.event_timestamp, e.sender, e.message_id), hproj, congrArg monthOf hfst⟩
    rw [distinct_ts_mid_sent, hnil]
    rfl

/-- Witness for C2 at the concrete scenario. -/
theorem sent_monthly_value_witness :
    sent_value scenarioFlat ["alice"] "alice" 23640 =
      distinct_ts_mid_sent scenarioFlat "alice" 23640 :=
  sent_monthly_value scenarioFlat ["alice"] "alice" (by decide) 23640

/-! ## Claim C3: densification of the two monthly views -/

/-- Counterexample to claim C3: a requested person who never appears among
the filtered rows gets no column at all (z is absent from the unstacked
frame built on scenarioFlat), and a month strictly between the global
earliest and latest event month gets no row when it lies in no per-group
resample range (February 1970 = 23641 is missing for gapFlat, whose two
groups span January only and March only). -/
theorem monthly_densification_cx :
    "z" ∉ (generate_sent_email_count_distribution scenarioFlat ["alice", "z"]).persons ∧
      "alice" ∈ (generate_sent_email_count_distribution scenarioFlat ["alice", "z"]).persons ∧
      23641 ∉ (generate_sent_email_count_distribution gapFlat ["a", "b"]).months ∧
      23640 ∈ (generate_sent_email_count_distribution gapFlat ["a", "b"]).months ∧
      23642 ∈ (generate_sent_email_count_distribution gapFlat ["a", "b"]).months := by
  decide

/-- Claim C3 (corrected): in both monthly views the person columns are
exactly the requested persons that appear in the filtered table (a requested
person with no events yields no column, not a zero column), each month of
the index and each column appear exactly once, the month index is exactly
the union of the per-group resample ranges (months outside every range are
absent, even between the global extremes), and a cell whose (person, month)
pair has no underlying events is 0. -/
theorem monthly_densification (df : List FlatEvent) (lst : List String) :
    (sent_months df lst).Nodup ∧ (sent_cols df lst).Nodup ∧
      (∀ p, p ∈ sent_cols df lst ↔ ∃ e ∈ df, e.sender = p ∧ p ∈ lst) ∧
      (∀ m, m ∈ sent_months df lst ↔ ∃ p ∈ sent_cols df lst, m ∈ sent_span df lst p) ∧
      (∀ p m, (∀ e ∈ df, e.sender = p → monthOf e.event_timestamp ≠ m) →
        sent_value df lst p m = 0) ∧
      (rel_months df lst).Nodup ∧ (rel_cols df lst).Nodup ∧
      (∀ p, p ∈ rel_cols df lst ↔ ∃ e ∈ df, e.recipient = p ∧ p ∈ lst) ∧
      (∀ m, m ∈ rel_months df lst ↔ ∃ p ∈ rel_cols df lst, m ∈ rel_span df lst p) ∧
      (∀ p m, (∀ e ∈ df, e.recipient = p → monthOf e.event_timestamp ≠ m) →
        rel_cnt df lst p m = 0) := by
  refine ⟨nodup_isortBy.mpr (List.nodup_dedup _),
    nodup_isortBy.mpr (List.nodup_dedup _), ?_, ?_, ?_,
    nodup_isortBy.mpr (List.nodup_dedup _),
    nodup_isortBy.mpr (List.nodup_dedup _), ?_, ?_, ?_⟩
  · intro p
    rw [sent_cols, mem_isortBy, List.mem_dedup, List.mem_map]
    constructor
    · rintro ⟨r, hr, rfl⟩
      rcases mem_senders_eeh.mp hr with ⟨e, ⟨he, hc⟩, rfl⟩
      exact ⟨e, he, rfl, List.elem_iff.mp hc⟩
    · rintro ⟨e, he, hsnd, hl⟩
      refine ⟨(e.event_timestamp, e.sender, e.message_id), ?_, hsnd⟩
      apply mem_senders_eeh.mpr
      refine ⟨e, ⟨he, ?_⟩, rfl⟩
      rw [hsnd]
      exact List.elem_iff.mpr hl
  · intro m
    rw [sent_months, mem_isortBy, List.mem_dedup, List.mem_flatten]
    constructor
    · rintro ⟨l, hl, hm⟩
      rcases List.mem_map.mp hl with ⟨p, hp, rfl⟩
      exact ⟨p, hp, hm⟩
    · rintro ⟨p, hp, hm⟩
      exact ⟨sent_span df lst p, List.mem_map_of_mem _ hp, hm⟩
  · intro p m h
    rw [sent_value]
    by_cases hm : m ∈ sent_span df lst p
    · rw [if_pos hm]
      have hnil : (sent_rows df lst p).filter (fun r => monthOf r.1 == m) = [] := by
        rw [List.filter_eq_nil_iff]
        intro r hr hpred
        rcases mem_sent_rows.mp hr with ⟨⟨e, ⟨he, hc⟩, rfl⟩, hsnd⟩
        have hfst : ((e.event_timestamp, e.sender, e.message_id) : SentRow).1 =
            e.event_timestamp := rfl
        have hpred2 : (monthOf ((e.event_timestamp, e.sender, e.message_id) : SentRow).1
            == m) = true := hpred
        rw [hfst] at hpred2
        have hse : e.sender = p := hsnd
        exact h e he hse (beq_iff_eq.mp hpred2)
      rw [hnil]
      rfl
    · rw [if_neg hm]
  · intro p
    rw [rel_cols, mem_isortBy, List.mem_dedup, List.mem_map]
    constructor
    · rintro ⟨e, he, rfl⟩
      rcases mem_recipient_eeh.mp he with ⟨hdf, hc⟩
      exact ⟨e, hdf, rfl, List.elem_iff.mp hc⟩
    · rintro ⟨e, he, hrec, hl⟩
      refine ⟨e, ?_, hrec⟩
      apply mem_recipient_eeh.mpr
      refine ⟨he, ?_⟩
      rw [hrec]
      exact List.elem_iff.mpr hl
  · intro m
    rw [rel_months, mem_isortBy, List.mem_dedup, List.mem_flatten]
    constructor
    · rintro ⟨l, hl, hm⟩
      rcases List.mem_map.mp hl with ⟨p, hp, rfl⟩
      exact ⟨p, hp, hm⟩
    · rintro ⟨p, hp, hm⟩
      exact ⟨rel_span df lst p, List.mem_map_of_mem _ hp, hm⟩
  · intro p m h
    rw [rel_cnt]
    by_cases hm : m ∈ rel_span df lst p
    · rw [if_pos hm]
      have hnil : (rel_rows df lst p).filter
          (fun e => monthOf e.event_timestamp == m) = [] := by
        rw [List.filter_eq_nil_iff]
        intro e he hpred
        rcases mem_rel_rows.mp he with ⟨⟨hdf, hc⟩, hrec⟩
        have hpred2 : (monthOf e.event_timestamp == m) = true := hpred
        exact h e hdf hrec (beq_iff_eq.mp hpred2)
      rw [hnil]
      rfl
    · rw [if_neg hm]

/-- Witness for C3: the zero-cell clause at a concrete cell with no events
(sender a of gapFlat has no March 1970 event). -/
theorem monthly_densification_witness :
    sent_value gapFlat ["a", "b"] "a" 23642 = 0 :=
  (monthly_densification gapFlat ["a", "b"]).2.2.2.2.1 "a" 23642 (by decide)

/-! ## Claim C1: the relative-contacts normalization -/

/-- Counterexample to claim C1: recipient A of nanFlat has events in January
and March 1970, so its own resample range includes February with 0 distinct
senders; the February row sum is 0 and the .div of line 266 computes 0/0,
which is NaN in pandas (modelled none) with no fillna afterwards — not the
0.0 the claim requires. -/
theorem rel_value_nan_cx :
    rel_value nanFlat ["A"] "A" 23641 = none ∧
      rel_value nanFlat ["A"] "A" 23641 ≠ some 0 ∧
      23641 ∈ (generate_relative_unique_contacts_distribution nanFlat ["A"]).months ∧
      "A" ∈ (generate_relative_unique_contacts_distribution nanFlat ["A"]).persons ∧
      rel_sum nanFlat ["A"] 23641 = 0 := by decide

/-- Claim C1 (corrected): for every person column and month of the output,
when the cross-column sum of the month is nonzero the cell is that person
count divided by the sum and the cells of the month sum to 1; when the sum
is 0 the cell is NaN (0/0 with no fillna after the division), not 0. -/
theorem rel_value_normalization (df : List FlatEvent) (lst : List String)
    (p : String) (m : Nat) (hp : p ∈ rel_cols df lst)
    (hm : m ∈ rel_months df lst) :
    (rel_sum df lst m = 0 → rel_value df lst p m = none) ∧
      (rel_sum df lst m ≠ 0 →
        rel_value df lst p m =
            some ((rel_cnt df lst p m : ℚ) / (rel_sum df lst m : ℚ)) ∧
          ((rel_cols df lst).map fun q => (rel_value df lst q m).getD 0).sum = 1) := by
  constructor
  · intro h0
    rw [rel_value, if_pos h0]
  · intro hne
    refine ⟨by rw [rel_value, if_neg hne], ?_⟩
    have hmap : ((rel_cols df lst).map fun q => (rel_value df lst q m).getD 0) =
        (rel_cols df lst).map fun q =>
          (rel_cnt df lst q m : ℚ) * ((rel_sum df lst m : ℚ))⁻¹ := by
      apply List.map_congr_left
      intro q _
      rw [rel_value, if_neg hne]
      rw [Option.getD_some, div_eq_mul_inv]
    rw [hmap, List.sum_map_mul_right]
    have hcast : ((rel_cols df lst).map fun q => (rel_cnt df lst q m : ℚ)).sum =
        (rel_sum df lst m : ℚ) := by
      rw [rel_sum, Nat.cast_list_sum, List.map_map]
      rfl
    rw [hcast]
    exact mul_inv_cancel₀ (Nat.cast_ne_zero.mpr hne)

/-- Witness for C1: the nonzero branch at the January 1970 cell of nanFlat. -/
theorem rel_value_normalization_witness :
    rel_value nanFlat ["A"] "A" 23640 =
        some ((rel_cnt nanFlat ["A"] "A" 23640 : ℚ) / (rel_sum nanFlat ["A"] 23640 : ℚ)) ∧
      ((rel_cols nanFlat ["A"]).map fun q => (rel_value nanFlat ["A"] q 23640).getD 0).sum = 1 :=
  (rel_value_normalization nanFlat ["A"] "A" 23640 (by decide) (by decide)).2 (by decide)

/-! ## Claim C10: the aggregations do not mutate the shared flat table -/

/-- Claim C10 (confirmed): each of the three method calls leaves the object
state (the flat table) exactly as it was — the derived frames are fresh and
the inplace mutations act on copies — so running one operation before
another never changes the result of the other. -/
theorem ops_read_only (s : EnronEventHistory) (sl rl : List String) :
    (generate_email_count_stats_op s).2 = s ∧
      (generate_sent_email_count_distribution_op s sl).2 = s ∧
      (generate_relative_unique_contacts_distribution_op s rl).2 = s ∧
      (generate_sent_email_count_distribution_op
          (generate_email_count_stats_op s).2 sl).1 =
        (generate_sent_email_count_distribution_op s sl).1 ∧
      (generate_email_count_stats_op
          (generate_relative_unique_contacts_distribution_op s rl).2).1 =
        (generate_email_count_stats_op s).1 ∧
      (generate_relative_unique_contacts_distribution_op
          (generate_sent_email_count_distribution_op s sl).2 rl).1 =
        (generate_relative_unique_contacts_distribution_op s rl).1 :=
  ⟨rfl, rfl, rfl, rfl, rfl, rfl⟩

end BNP
